import Mathlib

/-!
Shallow embedding of the Helios demo backend's universe core, translated from:
  - `src/unnamed/part_000` (server + `HeliosEngine` + `HeliosUniverse`)
  - `src/lib/universe-manager.js` (`UniverseManager`)

Modelling conventions:
  - JavaScript objects used as universe state are modelled as insertion-ordered
    association lists (`JObj`).  JS object spread `\x7b...a, ...b\x7d` is `objSpread`:
    keys of `a` keep their position (with `b`'s value when `b` also has the key),
    keys only in `b` are appended in order.  No operation in the source ever
    mutates a state object in place — every write builds a fresh object literal
    (`this.state = \x7b ...this.state, ...updates \x7d`) — so a pure value model is
    faithful, including for copy-on-write questions: observable sharing never
    arises at the JS level either.
  - `uuidv4()` is modelled by a fresh-name counter `Store.nextId` (the only
    property the source relies on is uniqueness of generated ids); ids are `Nat`.
  - `Date.now()` timestamps, free-form name/description/tags metadata and the
    purely numeric performance metrics are omitted: no claim mentions them.
  - The `HeliosEngine.universes` map and the `UniverseManager.universes` map
    hold references to the same universe objects, and every flow exercised by
    the claims registers created/cloned universes in the manager's map; both
    are modelled as the single live set `Store.universes`.
  - JS exceptions become `Except Err`; every `throw` in the modelled code paths
    happens before any store mutation, so an error leaves the store unchanged.
-/

namespace Helios

/-- JSON-ish values stored in a universe's `state`. -/
inductive JVal where
  | jnum  (n : Int)
  | jstr  (s : String)
  | jbool (b : Bool)
  | jnull
  | jobj  (fields : List (String × JVal))

abbrev JObj := List (String × JVal)

/-- Property lookup `o[k]` on a JS object (first entry wins; the operations
only ever build objects with distinct keys). -/
def jlookup (o : JObj) (k : String) : Option JVal :=
  (o.find? (fun p => p.1 = k)).map (·.2)

/-- JS object spread `\x7b ...a, ...b \x7d`: every key of `a` keeps its position,
taking `b`'s value when `b` also has the key; keys only in `b` are appended. -/
def objSpread (a b : JObj) : JObj :=
  a.map (fun p => match jlookup b p.1 with
          | some v => (p.1, v)
          | none => p)
    ++ b.filter (fun p => (jlookup a p.1).isNone)

mutual

/-- Model of `JSON.stringify` for a single value (string escaping is not modelled; the
states built by the claims contain no characters needing escapes). -/
def jvalStr : JVal → String
  | .jnum n => toString n
  | .jstr s => "\"" ++ s ++ "\""
  | .jbool true => "true"
  | .jbool false => "false"
  | .jnull => "null"
  | .jobj fields => "\x7b" ++ fieldsStr fields ++ "\x7d"

/-- Comma-separated `"key":value` members of an object literal. -/
def fieldsStr : List (String × JVal) → String
  | [] => ""
  | [p] => "\"" ++ p.1 ++ "\":" ++ jvalStr p.2
  | p :: q :: rest => "\"" ++ p.1 ++ "\":" ++ jvalStr p.2 ++ "," ++ fieldsStr (q :: rest)

end

/-- Model of `JSON.stringify(state)` for a whole state object. -/
def stringifyObj (o : JObj) : String :=
  "\x7b" ++ fieldsStr o ++ "\x7d"

/-- Length `JSON.stringify(state).length`, the derived `stateSize` (part_000 line 918). -/
def jsize (o : JObj) : Nat :=
  (stringifyObj o).length


/-- Snapshot record built by `HeliosUniverse.createSnapshot` (part_000:952-966).
`stateSize` is the snapshot's `metadata.stateSize`. -/
structure Snapshot where
  id : Nat
  universeId : Nat
  state : JObj
  stateSize : Nat

/-- Entity `HeliosUniverse` (part_000:909-924).  `stateSize`, `batchId` and
`creationIndex` are the claim-relevant `metadata` fields. -/
structure Universe where
  id : Nat
  parentId : Option Nat
  state : JObj
  stateSize : Nat
  batchId : Option Nat
  creationIndex : Option Nat
  snapshots : List Snapshot
  children : List Nat

/-- Result of `HeliosUniverse.updateState` (part_000:977-981). -/
structure UpdateResult where
  success : Bool
  sizeChange : Int
  cowTriggered : Bool

/-- The `HeliosUniverse` constructor (part_000:910-924): copies the initial
state (`\x7b ...config.initialState \x7d`) and derives `metadata.stateSize`. -/
def mkUniverse (id : Nat) (parentId : Option Nat) (initialState : JObj)
    (batchId : Option Nat) (creationIndex : Option Nat) : Universe :=
  { id := id
    parentId := parentId
    state := initialState
    stateSize := jsize initialState
    batchId := batchId
    creationIndex := creationIndex
    snapshots := []
    children := [] }

/-- Method `HeliosUniverse.clone` (part_000:929-947), the child half: the clone's
state is the source's state, its metadata spreads the source's metadata (so
`batchId`/`creationIndex` are inherited) and the constructor re-derives
`stateSize`. -/
def cloneChild (u : Universe) (newId : Nat) : Universe :=
  mkUniverse newId (some u.id) u.state u.batchId u.creationIndex

/-- Method `HeliosUniverse.clone`, the parent half: `this.children.push(clone.id)`. -/
def withChild (u : Universe) (cid : Nat) : Universe :=
  { u with children := u.children ++ [cid] }

/-- Method `HeliosUniverse.updateState` (part_000:971-982). -/
def Universe.updateStateU (u : Universe) (updates : JObj) : Universe × UpdateResult :=
  let oldSize := jsize u.state
  let newState := objSpread u.state updates
  let newSize := jsize newState
  ({ u with state := newState, stateSize := newSize },
   { success := true
     sizeChange := (newSize : Int) - (oldSize : Int)
     cowTriggered := u.parentId.isSome })

/-- Method `HeliosUniverse.createSnapshot` (part_000:952-966): deep-copies the current
state into an immutable record and appends it to the snapshot log. -/
def Universe.createSnapshotU (u : Universe) (snapId : Nat) : Universe × Snapshot :=
  let snap : Snapshot :=
    { id := snapId, universeId := u.id, state := u.state, stateSize := jsize u.state }
  ({ u with snapshots := u.snapshots ++ [snap] }, snap)

/-- Error taxonomy of the JS `throw new Error(...)` sites in the modelled code:
`notFound` for a missing universe id, `invalidArgument` for the count check in
`createUniverses` / empty `sourceIds` in `mergeUniverse` / non-object `updates`
in `updateUniverse`, `unknownOperation` for the `default` switch case of
`performOperation`. -/
inductive Err where
  | notFound
  | invalidArgument
  | unknownOperation
  deriving DecidableEq

/-- The live universe set (`HeliosEngine.universes` and the mirroring
`UniverseManager.universes`), the engine's configured `maxUniverses` and the
uuid supply. -/
structure Store where
  universes : List (Nat × Universe)
  nextId : Nat
  maxUniverses : Nat

/-- Lookup `this.universes.get(id)`. -/
def Store.get (s : Store) (id : Nat) : Option Universe :=
  (s.universes.find? (fun p => p.1 = id)).map (·.2)

/-- In-place object mutation of the universe stored under `id` (JS maps hold
references, so mutating the looked-up object updates the mapped entry). -/
def setEntry (m : List (Nat × Universe)) (id : Nat) (u : Universe) : List (Nat × Universe) :=
  m.map (fun p => if p.1 = id then (id, u) else p)

/-- Method `HeliosEngine.createUniverse` (part_000:501-529): builds a
`HeliosUniverse` with a fresh uuid and registers it.  Note: the source has NO
capacity check against `config.maxUniverses` — creation always succeeds. -/
def Store.createUniverse (s : Store) (initialState : JObj)
    (batchId : Option Nat := none) (creationIndex : Option Nat := none) :
    Store × Universe :=
  let id := s.nextId
  let u := mkUniverse id none initialState batchId creationIndex
  ({ s with universes := s.universes ++ [(id, u)], nextId := s.nextId + 1 }, u)

/-- Method `HeliosEngine.cloneUniverse` (part_000:541-565) and equally
`UniverseManager.cloneUniverse` (universe-manager.js:252-279): looks up the
source (`NotFound` if absent), calls `source.clone()` — which pushes the fresh
id onto the source's `children` — and registers the clone. -/
def Store.cloneUniverse (s : Store) (sourceId : Nat) : Except Err (Store × Universe) :=
  match s.get sourceId with
  | none => .error .notFound
  | some src =>
    let nid := s.nextId
    let c := cloneChild src nid
    .ok ({ s with
            universes := setEntry s.universes sourceId (withChild src nid) ++ [(nid, c)]
            nextId := s.nextId + 1 }, c)

/-- Store-level `updateState`: the lookup of `performOperation`
(universe-manager.js:146-149) followed by `universe.updateState(updates)`
(part_000:971-982). -/
def Store.updateState (s : Store) (id : Nat) (updates : JObj) :
    Except Err (Store × UpdateResult) :=
  match s.get id with
  | none => .error .notFound
  | some u =>
    let (u', r) := u.updateStateU updates
    .ok ({ s with universes := setEntry s.universes id u' }, r)

/-- Store-level snapshot capture: lookup then `universe.createSnapshot`
(part_000:570-588, universe-manager.js:230-247); the snapshot id is a fresh
uuid. -/
def Store.createSnapshot (s : Store) (id : Nat) : Except Err (Store × Snapshot) :=
  match s.get id with
  | none => .error .notFound
  | some u =>
    let (u', snap) := u.createSnapshotU s.nextId
    .ok ({ s with universes := setEntry s.universes id u', nextId := s.nextId + 1 }, snap)

/-- Eviction: `this.universes.delete(id)` as performed by
`UniverseManager.cleanup` (universe-manager.js:503-521); it never cascades to
children or purges `children` lists. -/
def Store.evict (s : Store) (id : Nat) : Store :=
  { s with universes := s.universes.filter (fun p => p.1 ≠ id) }

/-- Integrity issues pushed by `UniverseManager.checkIntegrity`
(universe-manager.js:642-664): the strings `'Parent universe not found'` and
`'Child universe <id> not found'`. -/
inductive Issue where
  | parentNotFound
  | childNotFound (id : Nat)
  deriving DecidableEq

/-- Method `UniverseManager.checkIntegrity` (universe-manager.js:642-664):
first the parent check, then one entry per recorded child id that is not in
the live map; `healthy` is `issues.length === 0`. -/
def checkIntegrity (s : Store) (u : Universe) : Bool × List Issue :=
  let parentIssues :=
    match u.parentId with
    | some p => if (s.get p).isNone then [Issue.parentNotFound] else []
    | none => []
  let childIssues :=
    u.children.filterMap (fun c =>
      if (s.get c).isNone then some (Issue.childNotFound c) else none)
  let issues := parentIssues ++ childIssues
  (issues.isEmpty, issues)

/-- Method `UniverseManager.countDescendants` (universe-manager.js:629-640):
`count` starts from `universe.children.length` (so EVERY recorded child id
contributes one, live or not) and recursion only descends into children still
present in the map.  The JS recursion is unbounded (it would overflow the
stack on a cyclic child graph); `fuel` bounds the modelled recursion depth and
is irrelevant whenever it exceeds the height of the child graph. -/
def countDescendants (s : Store) : Nat → Universe → Nat
  | 0, _ => 0
  | fuel + 1, u =>
    u.children.length +
      (u.children.map (fun c =>
        match s.get c with
        | some cu => countDescendants s fuel cu
        | none => 0)).sum

/-- Method `UniverseManager.findSiblings` (universe-manager.js:616-627). -/
def findSiblings (s : Store) (u : Universe) : List Nat :=
  match u.parentId with
  | none => []
  | some _ =>
    (s.universes.filter (fun q =>
      decide (q.2.parentId = u.parentId ∧ q.1 ≠ u.id))).map (·.1)

/-- Source resolution of `UniverseManager.mergeUniverse`
(universe-manager.js:352-358): `sourceIds.map(...)` throwing `NotFound` at the
first missing id, before any mutation. -/
def resolveSources (s : Store) : List Nat → Option (List Universe)
  | [] => some []
  | sid :: rest =>
    match s.get sid with
    | none => none
    | some u => (resolveSources s rest).map (fun us => u :: us)

/-- Method `UniverseManager.mergeUniverse` (universe-manager.js:345-381):
rejects an empty `sourceIds`, resolves every source, folds the source states
over a copy of the target's state with object spread
(`sourceUniverses.reduce((merged, source) => (\x7b ...merged, ...source.state \x7d),
\x7b ...targetUniverse.state \x7d)`), then applies the combined object through
`targetUniverse.updateState`. -/
def mergeUniverse (s : Store) (target : Universe) (sourceIds : List Nat) :
    Except Err (Store × UpdateResult) :=
  if sourceIds.isEmpty then .error .invalidArgument
  else
    match resolveSources s sourceIds with
    | none => .error .notFound
    | some sources =>
      let merged := sources.foldl (fun acc src => objSpread acc src.state) target.state
      let (u', r) := target.updateStateU merged
      .ok ({ s with universes := setEntry s.universes target.id u' }, r)

/-- Operation kinds dispatched by `UniverseManager.performOperation`
(universe-manager.js:155-176); `other` stands for any string hitting the
`default` case. -/
inductive OpKind where
  | snapshot
  | clone
  | update
  | branch
  | merge
  | analyze
  | other
  deriving DecidableEq

/-- Claim-relevant operation parameters (`params`): `updates` is `none` when
`params.updates` is missing or not an object (universe-manager.js:287),
`modifications` models `params.modifications` of `branchUniverse`, `sourceIds`
models `params.sourceIds` of `mergeUniverse`. -/
structure OpParams where
  updates : Option JObj := none
  modifications : Option JObj := none
  sourceIds : List Nat := []

/-- One entry of a `processBatchOperation` request:
`(universeId, operation, params)`. -/
structure BatchOp where
  universeId : Nat
  operation : OpKind
  params : OpParams

/-- Success payloads of `performOperation`, restricted to the data the claims
observe. -/
inductive OpResult where
  | snapshotR (snap : Snapshot)
  | cloneR (cloneId : Nat)
  | updateR (r : UpdateResult)
  | branchR (branchId : Nat)
  | mergeR (r : UpdateResult)
  | analyzeR (healthy : Bool) (issues : List Issue) (descendants : Nat) (siblings : List Nat)

/-- Method `UniverseManager.branchUniverse` (universe-manager.js:307-340):
`universe.clone()` (which registers the fresh id in the parent's `children`),
an optional `updateState(params.modifications)` on the branch, then
registration of the branch. -/
def branchUniverse (s : Store) (u : Universe) (modifications : Option JObj) :
    Store × Nat :=
  let nid := s.nextId
  let b := cloneChild u nid
  let b' := match modifications with
            | some m => (b.updateStateU m).1
            | none => b
  ({ s with
      universes := setEntry s.universes u.id (withChild u nid) ++ [(nid, b')]
      nextId := s.nextId + 1 }, nid)

/-- Method `UniverseManager.performOperation` (universe-manager.js:143-225):
looks the universe up in the manager map (`NotFound` if absent) and dispatches
on the operation kind.  The `analyze` branch (universe-manager.js:386-424)
runs the read-only analyses; its descendant count uses the live-set size as
recursion fuel, which exceeds the height of any acyclic child graph. -/
def performOperation (s : Store) (op : BatchOp) : Except Err (Store × OpResult) :=
  match s.get op.universeId with
  | none => .error .notFound
  | some u =>
    match op.operation with
    | .snapshot =>
      let (u', snap) := u.createSnapshotU s.nextId
      .ok ({ s with universes := setEntry s.universes op.universeId u'
                    nextId := s.nextId + 1 }, .snapshotR snap)
    | .clone =>
      let nid := s.nextId
      let c := cloneChild u nid
      .ok ({ s with
              universes := setEntry s.universes op.universeId (withChild u nid) ++ [(nid, c)]
              nextId := s.nextId + 1 }, .cloneR nid)
    | .update =>
      match op.params.updates with
      | none => .error .invalidArgument
      | some upd =>
        let (u', r) := u.updateStateU upd
        .ok ({ s with universes := setEntry s.universes op.universeId u' }, .updateR r)
    | .branch =>
      let (s', bid) := branchUniverse s u op.params.modifications
      .ok (s', .branchR bid)
    | .merge =>
      (mergeUniverse s u op.params.sourceIds).map (fun (s', r) => (s', .mergeR r))
    | .analyze =>
      let (healthy, issues) := checkIntegrity s u
      .ok (s, .analyzeR healthy issues
                (countDescendants s s.universes.length u) (findSiblings s u))
    | .other => .error .unknownOperation

/-- Per-item outcome collected by `processBatchOperation`: either the resolved
operation result or the `\x7b error, index \x7d` object built in the per-item
`catch` (universe-manager.js:471). -/
inductive ItemResult where
  | ok (r : OpResult)
  | failed (e : Err) (index : Nat)

/-- Truth of an item being a failure entry. -/
def ItemResult.isFailed : ItemResult → Bool
  | .ok _ => false
  | .failed _ _ => true

/-- Method `UniverseManager.processBatchOperation` (universe-manager.js:461-498):
each operation runs under its own `try/catch`, so one item's failure is
recorded as a `\x7b error, index \x7d` entry and never aborts the siblings.  Node's
single-threaded execution of these effectively-synchronous async callbacks is
modelled as left-to-right store threading; a failed item leaves the store
untouched (every `throw` in `performOperation` precedes any mutation). -/
def runBatch (s : Store) : List BatchOp → Nat → Store × List ItemResult
  | [], _ => (s, [])
  | op :: rest, i =>
    match performOperation s op with
    | .ok (s', r) =>
      let (s'', rs) := runBatch s' rest (i + 1)
      (s'', .ok r :: rs)
    | .error e =>
      let (s'', rs) := runBatch s rest (i + 1)
      (s'', .failed e i :: rs)

/-- Entry point of the batch run: indices start at 0. -/
def processBatchOperation (s : Store) (ops : List BatchOp) : Store × List ItemResult :=
  runBatch s ops 0

/-- Inner `for (j = 0; j < currentBatchSize; j++)` loop of
`UniverseManager.createUniverses` (universe-manager.js:61-75): `k` creations
whose `metadata.creationIndex` runs `base, base+1, ...` (`i + j` in the
source) and whose `metadata.batchId` is the batch uuid. -/
def createChunk (s : Store) (bid : Nat) (init : JObj) :
    Nat → Nat → Store × List Universe
  | _, 0 => (s, [])
  | base, k + 1 =>
    let (s₁, u) := s.createUniverse init (some bid) (some base)
    let (s₂, us) := createChunk s₁ bid init (base + 1) k
    (s₂, u :: us)

/-- Outer `for (i = 0; i < count; i += batchSize)` loop of
`UniverseManager.createUniverses` (universe-manager.js:57-89), expressed over
the remaining count `r` (`count - i`) and the running base index `b` (`i`);
each round creates `min batchSize r` universes.  The source always calls this
with `batchSize = min(this.config.batchSize, count) ≥ 1`; the `batchSize = 0`
equation (on which the JS loop would spin forever) is unreachable from
`createUniverses`. -/
def createChunks (bid : Nat) (init : JObj) :
    (batchSize : Nat) → Store → Nat → Nat → Store × List Universe
  | _, s, 0, _ => (s, [])
  | 0, s, _ + 1, _ => (s, [])
  | bs + 1, s, r + 1, b =>
    let k := min (bs + 1) (r + 1)
    let c := createChunk s bid init b k
    let rest := createChunks bid init (bs + 1) c.1 (r + 1 - k) (b + k)
    (rest.1, c.2 ++ rest.2)
termination_by _ _ r _ => r
decreasing_by simp_wf

/-- Method `UniverseManager.createUniverses` (universe-manager.js:43-126):
draws a batch uuid, validates `0 < count ≤ 10000` (throwing before any
universe is created — on error the store is unchanged), then creates `count`
universes in chunks of `min(this.config.batchSize, count)` where
`config.batchSize = 50` (universe-manager.js:31). -/
def Store.createUniverses (s : Store) (count : Int) (init : JObj) :
    Except Err (Store × List Universe) :=
  if count ≤ 0 ∨ count > 10000 then .error .invalidArgument
  else
    let bid := s.nextId
    let s₁ := { s with nextId := s.nextId + 1 }
    let n := count.toNat
    .ok (createChunks bid init (min 50 n) s₁ n 0)

/-- Configured `maxBatchCount` of the count validation
(universe-manager.js:49). -/
def maxBatchCount : Int := 10000

/-! Lemmas about object spread and key lookup. -/

/-- Finding a key in the override half of a spread commutes with the
key-preserving override map. -/
theorem find?_overrideMap (a b : JObj) (k : String) :
    (a.map (fun p => match jlookup b p.1 with
              | some v => (p.1, v)
              | none => p)).find? (fun p => p.1 = k)
    = (a.find? (fun p => p.1 = k)).map (fun p => match jlookup b p.1 with
              | some v => (p.1, v)
              | none => p) := by
  induction a with
  | nil => rfl
  | cons p a ih =>
    simp only [List.map_cons, List.find?_cons]
    by_cases h : p.1 = k
    · cases hb : jlookup b p.1 with
      | some v =>
        have hb2 : jlookup b k = some v := h ▸ hb
        simp [h, hb, hb2]
      | none =>
        have hb2 : jlookup b k = none := h ▸ hb
        simp [h, hb, hb2]
    · cases hb : jlookup b p.1 with
      | some v => simp [h, hb, ih]
      | none => simp [h, hb, ih]

/-- Finding a key in a filtered list is unchanged when the filter keeps every
entry carrying that key. -/
theorem find?_filter_keyed (b : JObj) (pred : String × JVal → Bool) (k : String)
    (h : ∀ p, p.1 = k → pred p = true) :
    (b.filter pred).find? (fun p => p.1 = k) = b.find? (fun p => p.1 = k) := by
  induction b with
  | nil => rfl
  | cons p b ih =>
    by_cases hk : p.1 = k
    · simp [List.filter_cons, h p hk, List.find?_cons, hk]
    · cases hp : pred p <;> simp [List.filter_cons, hp, List.find?_cons, hk, ih]

/-- Key lookup after JS object spread: the right (later) object wins. -/
theorem jlookup_objSpread (a b : JObj) (k : String) :
    jlookup (objSpread a b) k =
      match jlookup b k with
      | some v => some v
      | none => jlookup a k := by
  show ((objSpread a b).find? (fun p => p.1 = k)).map (·.2) = _
  unfold objSpread
  rw [List.find?_append, find?_overrideMap]
  cases ha : a.find? (fun p => p.1 = k) with
  | some p =>
    have hk : p.1 = k := by simpa using List.find?_some ha
    cases hb : b.find? (fun q => q.1 = k) with
    | some q => simp [Option.or, jlookup, hk, hb]
    | none => simp [Option.or, jlookup, hk, hb, ha]
  | none =>
    have ha' : jlookup a k = none := by simp [jlookup, ha]
    rw [find?_filter_keyed b _ k (by intro p hp; rw [hp, ha']; rfl)]
    cases hb : b.find? (fun q => q.1 = k) <;>
      simp [Option.or, jlookup, hb, ha]

/-! Lemmas about the live-universe map. -/

/-- Spelling of `Store.get` over a raw entry list. -/
def lookupU (m : List (Nat × Universe)) (id : Nat) : Option Universe :=
  (m.find? (fun p => p.1 = id)).map (·.2)

theorem Store.get_def (s : Store) (id : Nat) : s.get id = lookupU s.universes id := rfl

theorem lookupU_setEntry_self {m : List (Nat × Universe)} {id : Nat} {u : Universe}
    (v : Universe) (h : lookupU m id = some u) :
    lookupU (setEntry m id v) id = some v := by
  induction m with
  | nil => simp [lookupU] at h
  | cons p m ih =>
    by_cases hk : p.1 = id
    · simp [lookupU, setEntry, List.find?_cons, hk]
    · have h' : lookupU m id = some u := by
        simpa [lookupU, List.find?_cons, hk] using h
      simpa [lookupU, setEntry, List.find?_cons, hk] using ih h'

theorem lookupU_setEntry_ne {m : List (Nat × Universe)} {id j : Nat} (u : Universe)
    (h : j ≠ id) : lookupU (setEntry m id u) j = lookupU m j := by
  induction m with
  | nil => rfl
  | cons p m ih =>
    by_cases hk : p.1 = id
    · have hne : ¬(id = j) := fun hh => h hh.symm
      have hpj : ¬(p.1 = j) := by rw [hk]; exact hne
      simpa [lookupU, setEntry, List.find?_cons, hk, hne, hpj] using ih
    · by_cases hj : p.1 = j
      · have hji : ¬(j = id) := by rw [← hj]; exact hk
        simp [lookupU, setEntry, List.find?_cons, hk, hj, hji]
      · simpa [lookupU, setEntry, List.find?_cons, hk, hj] using ih

theorem lookupU_setEntry_isSome (m : List (Nat × Universe)) (id j : Nat) (u : Universe) :
    (lookupU (setEntry m id u) j).isSome = (lookupU m j).isSome := by
  induction m with
  | nil => rfl
  | cons p m ih =>
    by_cases hk : p.1 = id
    · by_cases hj : id = j
      · subst hj
        simp [lookupU, setEntry, List.find?_cons, hk]
      · have hpj : ¬(p.1 = j) := by rw [hk]; exact hj
        simpa [lookupU, setEntry, List.find?_cons, hk, hj, hpj] using ih
    · by_cases hj : p.1 = j
      · have hji : ¬(j = id) := by rw [← hj]; exact hk
        simp [lookupU, setEntry, List.find?_cons, hk, hj, hji]
      · simpa [lookupU, setEntry, List.find?_cons, hk, hj] using ih

theorem lookupU_append_left {m mm : List (Nat × Universe)} {j : Nat} {u : Universe}
    (h : lookupU m j = some u) : lookupU (m ++ mm) j = some u := by
  unfold lookupU at h ⊢
  rw [List.find?_append]
  cases hf : m.find? (fun p => p.1 = j) with
  | some p =>
    rw [hf] at h
    simpa [Option.or] using h
  | none => rw [hf] at h; simp at h

theorem lookupU_append_none {m mm : List (Nat × Universe)} {j : Nat}
    (h : lookupU m j = none) : lookupU (m ++ mm) j = lookupU mm j := by
  unfold lookupU at h ⊢
  rw [List.find?_append]
  cases hf : m.find? (fun p => p.1 = j) with
  | some p => rw [hf] at h; simp at h
  | none => simp [Option.or]

/-- Boundedness of the keys of the live map by the uuid counter: every store
built by the modelled operations satisfies this, since generated ids strictly
increase. -/
def keysLt (m : List (Nat × Universe)) (n : Nat) : Prop :=
  ∀ p ∈ m, p.1 < n

/-- Wellformedness of a store: live keys are below the fresh-id counter. -/
def StoreWF (s : Store) : Prop :=
  keysLt s.universes s.nextId

instance (m : List (Nat × Universe)) (n : Nat) : Decidable (keysLt m n) :=
  List.decidableBAll _ m

instance (s : Store) : Decidable (StoreWF s) :=
  inferInstanceAs (Decidable (keysLt _ _))

theorem lookupU_none_of_keysLt {m : List (Nat × Universe)} {n j : Nat}
    (h : keysLt m n) (hj : n ≤ j) : lookupU m j = none := by
  unfold lookupU
  cases hf : m.find? (fun p => p.1 = j) with
  | some p =>
    exfalso
    have hkey : p.1 = j := by simpa using List.find?_some hf
    have hlt : p.1 < n := h p (List.mem_of_find?_eq_some hf)
    omega
  | none => rfl

theorem keysLt_key_lt {m : List (Nat × Universe)} {n j : Nat} {u : Universe}
    (h : keysLt m n) (hj : lookupU m j = some u) : j < n := by
  unfold lookupU at hj
  cases hf : m.find? (fun p => p.1 = j) with
  | some p =>
    have hkey : p.1 = j := by simpa using List.find?_some hf
    have hlt : p.1 < n := h p (List.mem_of_find?_eq_some hf)
    omega
  | none => rw [hf] at hj; simp at hj

theorem keysLt_setEntry {m : List (Nat × Universe)} {n id : Nat} (u : Universe)
    (h : keysLt m n) (hid : id < n) : keysLt (setEntry m id u) n := by
  intro p hp
  rcases List.mem_map.mp hp with ⟨q, hq, hpq⟩
  by_cases hk : q.1 = id
  · rw [if_pos hk] at hpq
    have hp1 : p.1 = id := by rw [← hpq]
    rw [hp1]; exact hid
  · rw [if_neg hk] at hpq
    exact hpq ▸ h q hq

theorem keysLt_append {m mm : List (Nat × Universe)} {n : Nat}
    (h : keysLt m n) (h2 : keysLt mm n) : keysLt (m ++ mm) n := by
  intro p hp
  rcases List.mem_append.mp hp with hm | hm
  · exact h p hm
  · exact h2 p hm

theorem keysLt_mono {m : List (Nat × Universe)} {n n2 : Nat}
    (h : keysLt m n) (hn : n ≤ n2) : keysLt m n2 := by
  intro p hp
  exact lt_of_lt_of_le (h p hp) hn

theorem lookupU_singleton (n : Nat) (u : Universe) : lookupU [(n, u)] n = some u := by
  simp [lookupU, List.find?_cons]

/-! Concrete example data shared by the witnesses below. -/

/-- Initial state of the concrete scenario: `\x7bx: 1\x7d`. -/
def exInit : JObj := [("x", JVal.jnum 1)]

/-- Empty store with the default configuration (`maxUniverses: 10000`,
part_000:117). -/
def exStore0 : Store := { universes := [], nextId := 0, maxUniverses := 10000 }

/-- Store holding one root universe (id 0) with state `\x7bx: 1\x7d`. -/
def exStore1 : Store := (exStore0.createUniverse exInit).1

/-- The root universe of `exStore1`. -/
def exA : Universe := mkUniverse 0 none exInit none none

/-! Claim C1. -/

/-- C1: for every universe `U` (state `A` at id `aid`), cloning `U` and then
mutating the clone via `updateState` never changes `U`'s state; the clone's
state becomes the source state overridden by the updates (so in the concrete
scenario `get(A).state.x == 1` and `get(B).state.x == 2`). -/
theorem clone_update_preserves_parent_state
    (s : Store) (aid : Nat) (A : Universe) (upd : JObj)
    (hWF : StoreWF s) (hA : s.get aid = some A) :
    ∃ s₁ B s₂ r,
      s.cloneUniverse aid = .ok (s₁, B) ∧
      s₁.updateState B.id upd = .ok (s₂, r) ∧
      (s₂.get aid).map Universe.state = some A.state ∧
      (s₂.get B.id).map Universe.state = some (objSpread A.state upd) := by
  have hA' : lookupU s.universes aid = some A := hA
  have haid_lt : aid < s.nextId := keysLt_key_lt hWF hA'
  have hBid : (cloneChild A s.nextId).id = s.nextId := rfl
  have hclone : s.cloneUniverse aid = .ok
      ({ s with
          universes := setEntry s.universes aid (withChild A s.nextId)
            ++ [(s.nextId, cloneChild A s.nextId)]
          nextId := s.nextId + 1 }, cloneChild A s.nextId) := by
    simp [Store.cloneUniverse, hA]
  have hleft : lookupU (setEntry s.universes aid (withChild A s.nextId)) s.nextId = none :=
    lookupU_none_of_keysLt (keysLt_setEntry _ hWF haid_lt) (le_refl _)
  have hgetB : lookupU (setEntry s.universes aid (withChild A s.nextId)
      ++ [(s.nextId, cloneChild A s.nextId)]) s.nextId
      = some (cloneChild A s.nextId) := by
    rw [lookupU_append_none hleft, lookupU_singleton]
  have hupd : ({ s with
      universes := setEntry s.universes aid (withChild A s.nextId)
        ++ [(s.nextId, cloneChild A s.nextId)]
      nextId := s.nextId + 1 } : Store).updateState (cloneChild A s.nextId).id upd
      = .ok ({ s with
          universes := setEntry
            (setEntry s.universes aid (withChild A s.nextId)
              ++ [(s.nextId, cloneChild A s.nextId)])
            s.nextId ((cloneChild A s.nextId).updateStateU upd).1
          nextId := s.nextId + 1 },
        ((cloneChild A s.nextId).updateStateU upd).2) := by
    simp [Store.updateState, Store.get_def, hBid, hgetB]
  refine ⟨_, _, _, _, hclone, hupd, ?_, ?_⟩
  · rw [Store.get_def]
    show (lookupU (setEntry
        (setEntry s.universes aid (withChild A s.nextId)
          ++ [(s.nextId, cloneChild A s.nextId)])
        s.nextId ((cloneChild A s.nextId).updateStateU upd).1) aid).map Universe.state
      = some A.state
    rw [lookupU_setEntry_ne _ (show aid ≠ s.nextId by omega),
      lookupU_append_left (lookupU_setEntry_self (withChild A s.nextId) hA')]
    rfl
  · rw [Store.get_def]
    show (lookupU (setEntry
        (setEntry s.universes aid (withChild A s.nextId)
          ++ [(s.nextId, cloneChild A s.nextId)])
        s.nextId ((cloneChild A s.nextId).updateStateU upd).1)
        (cloneChild A s.nextId).id).map Universe.state
      = some (objSpread A.state upd)
    rw [hBid, lookupU_setEntry_self _ hgetB]
    rfl

/-- Concrete run of claim C1: create `A` with `\x7bx: 1\x7d`, clone it into `B`,
update `B` with `\x7bx: 2\x7d`; `A` still maps `x` to 1 and `B` maps `x` to 2. -/
theorem clone_update_preserves_parent_state_witness :
    StoreWF exStore1 ∧ exStore1.get 0 = some exA ∧
    (∃ s₁ B s₂ r,
      exStore1.cloneUniverse 0 = .ok (s₁, B) ∧
      s₁.updateState B.id [("x", JVal.jnum 2)] = .ok (s₂, r) ∧
      (s₂.get 0).map Universe.state = some exInit ∧
      (s₂.get B.id).map Universe.state
        = some (objSpread exInit [("x", JVal.jnum 2)])) :=
  ⟨by decide, rfl,
    clone_update_preserves_parent_state exStore1 0 exA [("x", JVal.jnum 2)]
      (by decide) rfl⟩

/-! Claim C2. -/

/-- C2: a snapshot's state is an independent copy of the universe's state at
capture time: capturing a snapshot and then mutating the universe via
`updateState` leaves the captured snapshot's state (both the returned record
and the entry appended to the universe's snapshot log) unchanged. -/
theorem snapshot_isolated_from_updates
    (s : Store) (aid : Nat) (A : Universe) (upd : JObj)
    (hA : s.get aid = some A) :
    ∃ s₁ snap s₂ r,
      s.createSnapshot aid = .ok (s₁, snap) ∧
      s₁.updateState aid upd = .ok (s₂, r) ∧
      snap.state = A.state ∧
      (s₂.get aid).map Universe.snapshots = some (A.snapshots ++ [snap]) := by
  have hA' : lookupU s.universes aid = some A := hA
  have hsnap : s.createSnapshot aid = .ok
      ({ s with
          universes := setEntry s.universes aid (A.createSnapshotU s.nextId).1
          nextId := s.nextId + 1 }, (A.createSnapshotU s.nextId).2) := by
    simp [Store.createSnapshot, hA]
  have hget₁ : lookupU (setEntry s.universes aid (A.createSnapshotU s.nextId).1) aid
      = some (A.createSnapshotU s.nextId).1 :=
    lookupU_setEntry_self _ hA'
  have hupd : ({ s with
      universes := setEntry s.universes aid (A.createSnapshotU s.nextId).1
      nextId := s.nextId + 1 } : Store).updateState aid upd
      = .ok ({ s with
          universes := setEntry
            (setEntry s.universes aid (A.createSnapshotU s.nextId).1)
            aid (((A.createSnapshotU s.nextId).1).updateStateU upd).1
          nextId := s.nextId + 1 },
        (((A.createSnapshotU s.nextId).1).updateStateU upd).2) := by
    simp [Store.updateState, Store.get_def, hget₁]
  refine ⟨_, _, _, _, hsnap, hupd, rfl, ?_⟩
  rw [Store.get_def]
  show (lookupU (setEntry
      (setEntry s.universes aid (A.createSnapshotU s.nextId).1)
      aid (((A.createSnapshotU s.nextId).1).updateStateU upd).1) aid).map Universe.snapshots
    = some (A.snapshots ++ [(A.createSnapshotU s.nextId).2])
  rw [lookupU_setEntry_self _ hget₁]
  rfl

/-- Concrete run of claim C2: snapshot the root universe of `exStore1`, then
update its state; the captured snapshot still holds `\x7bx: 1\x7d` and is the sole
entry of the snapshot log. -/
theorem snapshot_isolated_from_updates_witness :
    exStore1.get 0 = some exA ∧
    (∃ s₁ snap s₂ r,
      exStore1.createSnapshot 0 = .ok (s₁, snap) ∧
      s₁.updateState 0 [("x", JVal.jnum 2)] = .ok (s₂, r) ∧
      snap.state = exInit ∧
      (s₂.get 0).map Universe.snapshots = some ([] ++ [snap])) :=
  ⟨rfl,
    snapshot_isolated_from_updates exStore1 0 exA [("x", JVal.jnum 2)] rfl⟩

/-! Claim C3. -/

/-- Store already holding its configured maximum of live universes
(`maxUniverses = 1`). -/
def c3Store : Store := { universes := [(0, exA)], nextId := 1, maxUniverses := 1 }

/-- C3 counterexample: with the store at the configured maximum, a create
request does NOT fail — `HeliosEngine.createUniverse` (part_000:501-529) has
no capacity check at all — and the store afterwards holds `maxUniverses + 1`
live universes, with the new universe present. -/
theorem create_at_capacity_succeeds
    : c3Store.universes.length = c3Store.maxUniverses ∧
      ((c3Store.createUniverse exInit).1).universes.length = c3Store.maxUniverses + 1 ∧
      ((c3Store.createUniverse exInit).1).get 1
        = some (mkUniverse 1 none exInit none none) := by
  exact ⟨rfl, rfl, rfl⟩

/-- C3 amended: `createUniverse` performs no capacity check: it always
succeeds, appending exactly one new universe to the live set regardless of how
the current count compares with the configured `maxUniverses` (which the
source only uses for a health warning, part_000:783). -/
theorem createUniverse_ignores_capacity
    (s : Store) (init : JObj) (bid : Option Nat) (ci : Option Nat) :
    ((s.createUniverse init bid ci).1).universes
      = s.universes ++ [(s.nextId, mkUniverse s.nextId none init bid ci)] ∧
    ((s.createUniverse init bid ci).1).universes.length = s.universes.length + 1 := by
  refine ⟨rfl, ?_⟩
  simp [Store.createUniverse]

/-! Claim C4. -/

/-- Store holding the root universe (id 0) and its clone (id 1). -/
def c4s1 : Store :=
  match exStore1.cloneUniverse 0 with
  | .ok (s, _) => s
  | .error _ => exStore1

/-- Store after the clone's first `updateState` (it has already diverged). -/
def c4s2 : Store :=
  match c4s1.updateState 1 [("x", JVal.jnum 2)] with
  | .ok (s, _) => s
  | .error _ => c4s1

/-- Result of the clone's first `updateState`. -/
def c4r1 : UpdateResult :=
  match c4s1.updateState 1 [("x", JVal.jnum 2)] with
  | .ok (_, r) => r
  | .error _ => { success := false, sizeChange := 0, cowTriggered := false }

/-- C4 counterexample: the clone at id 1 has already diverged (its first
`updateState` is baked into `c4s2`), yet a second `updateState` still reports
a COW break — `cowTriggered` is computed as `parentId !== null` on every call
(part_000:980), not only on the first one. -/
theorem second_update_still_reports_cow_break :
    (c4s2.updateState 1 [("y", JVal.jnum 3)]).map (fun p => p.2.cowTriggered)
      = .ok true ∧
    c4r1.cowTriggered = true := by
  exact ⟨rfl, rfl⟩

/-- C4 amended: `updateState` reports a COW break exactly when the universe's
`parentId` is set, on every call: every `updateState` on a clone-produced
universe (first and subsequent alike) reports a break, and a universe created
with no parent never reports one; `parentId` is never changed by the update,
so the report is identical on repeated updates. -/
theorem cow_break_iff_parent
    (s : Store) (id : Nat) (u : Universe) (upd : JObj)
    (s' : Store) (r : UpdateResult)
    (hu : s.get id = some u) (h : s.updateState id upd = .ok (s', r)) :
    r.cowTriggered = u.parentId.isSome ∧
    (s'.get id).map Universe.parentId = some u.parentId := by
  have hu' : lookupU s.universes id = some u := hu
  simp only [Store.updateState, Store.get_def, hu', Except.ok.injEq, Prod.mk.injEq] at h
  obtain ⟨h1, h2⟩ := h
  subst h1
  subst h2
  refine ⟨rfl, ?_⟩
  rw [Store.get_def]
  show (lookupU (setEntry s.universes id (u.updateStateU upd).1) id).map Universe.parentId
    = some u.parentId
  rw [lookupU_setEntry_self _ hu']
  rfl

/-- Concrete run of claim C4 (amended): the first update of the clone at id 1
reports `cowTriggered = (some 0).isSome = true`, and the clone's `parentId`
survives the update. -/
theorem cow_break_iff_parent_witness :
    c4s1.get 1 = some (cloneChild exA 1) ∧
    c4s1.updateState 1 [("x", JVal.jnum 2)] = .ok (c4s2, c4r1) ∧
    (c4r1.cowTriggered = (cloneChild exA 1).parentId.isSome ∧
     (c4s2.get 1).map Universe.parentId = some (cloneChild exA 1).parentId) :=
  ⟨rfl, rfl,
    cow_break_iff_parent c4s1 1 (cloneChild exA 1) [("x", JVal.jnum 2)] c4s2 c4r1 rfl rfl⟩


/-! Claim C5. -/

/-- C5: `merge(target, [a, b], "replace")` resolves key `k` of the resulting
target state as: `b`'s value if `b` has the key (later source wins, also over
the target), otherwise `a`'s value if `a` has it, otherwise the target's
original value (the target's state is merged in first and persists unless
overwritten). -/
theorem merge_replace_later_source_wins
    (s : Store) (t A B : Universe) (aid bid : Nat) (k : String)
    (ht : s.get t.id = some t) (ha : s.get aid = some A) (hb : s.get bid = some B) :
    ∃ s' r t',
      mergeUniverse s t [aid, bid] = .ok (s', r) ∧
      s'.get t.id = some t' ∧
      jlookup t'.state k =
        (match jlookup B.state k with
          | some w => some w
          | none =>
            match jlookup A.state k with
            | some v => some v
            | none => jlookup t.state k) := by
  have ht' : lookupU s.universes t.id = some t := ht
  have hres : resolveSources s [aid, bid] = some [A, B] := by
    simp [resolveSources, ha, hb]
  have hmerge : mergeUniverse s t [aid, bid] = .ok
      ({ s with
          universes := setEntry s.universes t.id
            (t.updateStateU (objSpread (objSpread t.state A.state) B.state)).1 },
        (t.updateStateU (objSpread (objSpread t.state A.state) B.state)).2) := by
    simp [mergeUniverse, hres]
  refine ⟨_, _, (t.updateStateU (objSpread (objSpread t.state A.state) B.state)).1,
    hmerge, ?_, ?_⟩
  · rw [Store.get_def]
    show lookupU (setEntry s.universes t.id
        (t.updateStateU (objSpread (objSpread t.state A.state) B.state)).1) t.id
      = some (t.updateStateU (objSpread (objSpread t.state A.state) B.state)).1
    rw [lookupU_setEntry_self _ ht']
  · show jlookup (objSpread t.state (objSpread (objSpread t.state A.state) B.state)) k = _
    rw [jlookup_objSpread, jlookup_objSpread, jlookup_objSpread]
    cases hbk : jlookup B.state k <;> cases hak : jlookup A.state k <;>
      cases htk : jlookup t.state k <;> simp

/-- Target, first source and second source universes of the concrete merge
scenario: overlapping key `k`, plus one private key each. -/
def c5T : Universe := mkUniverse 0 none [("t", JVal.jnum 0), ("k", JVal.jnum 0)] none none

/-- First merge source (id 1). -/
def c5A : Universe := mkUniverse 1 none [("k", JVal.jnum 1), ("a", JVal.jnum 1)] none none

/-- Second merge source (id 2). -/
def c5B : Universe := mkUniverse 2 none [("k", JVal.jnum 2), ("b", JVal.jnum 2)] none none

/-- Store holding the three universes of the merge scenario. -/
def c5Store : Store :=
  { universes := [(0, c5T), (1, c5A), (2, c5B)], nextId := 3, maxUniverses := 10000 }

/-- Concrete run of claim C5 at the overlapping key: both sources carry `k`,
and the merged target ends up with the later source's value `2`. -/
theorem merge_replace_later_source_wins_witness :
    c5Store.get 0 = some c5T ∧ c5Store.get 1 = some c5A ∧ c5Store.get 2 = some c5B ∧
    (∃ s' r t',
      mergeUniverse c5Store c5T [1, 2] = .ok (s', r) ∧
      s'.get 0 = some t' ∧
      jlookup t'.state "k" =
        (match jlookup c5B.state "k" with
          | some w => some w
          | none =>
            match jlookup c5A.state "k" with
            | some v => some v
            | none => jlookup c5T.state "k")) :=
  ⟨rfl, rfl, rfl,
    merge_replace_later_source_wins c5Store c5T c5A c5B 1 2 "k" rfl rfl rfl⟩

/-! Claim C6. -/

/-- Universe with a single recorded child id 1 whose universe is evicted. -/
def c6A : Universe := { mkUniverse 0 none [] none none with children := [1] }

/-- Store holding only `c6A`; the recorded child id 1 is not live. -/
def c6Store : Store := { universes := [(0, c6A)], nextId := 2, maxUniverses := 10000 }

/-- C6 counterexample: the recorded child id 1 has been evicted, yet
`countDescendants` returns 1, not 0 — the count starts from
`universe.children.length` (universe-manager.js:630), which still includes the
evicted child. -/
theorem evicted_child_still_counted :
    c6Store.get 1 = none ∧ c6A.children = [1] ∧
    countDescendants c6Store 5 c6A = 1 := by
  exact ⟨rfl, rfl, rfl⟩

/-- C6 amended: `countDescendants` counts every recorded child id once — live
or evicted — and only recurses into the live ones; in particular when all of a
universe's recorded children are evicted the count equals the length of the
`children` list (each evicted child contributes exactly one, never zero). -/
theorem countDescendants_counts_evicted_children
    (s : Store) (u : Universe) (fuel : Nat)
    (h : ∀ c ∈ u.children, (s.get c).isNone = true) :
    countDescendants s (fuel + 1) u = u.children.length := by
  have hsum : (u.children.map fun c =>
      match s.get c with
      | some cu => countDescendants s fuel cu
      | none => 0).sum = 0 := by
    apply List.sum_eq_zero
    intro x hx
    rcases List.mem_map.mp hx with ⟨c, hc, hxc⟩
    rw [Option.isNone_iff_eq_none.mp (h c hc)] at hxc
    exact hxc.symm
  show u.children.length + _ = u.children.length
  rw [hsum]
  omega

/-- Concrete run of claim C6 (amended): the sole recorded child of `c6A` is
evicted and the descendant count is the children-list length, 1. -/
theorem countDescendants_counts_evicted_children_witness :
    (∀ c ∈ c6A.children, (c6Store.get c).isNone = true) ∧
    countDescendants c6Store 5 c6A = c6A.children.length :=
  ⟨by decide, countDescendants_counts_evicted_children c6Store c6A 4 (by decide)⟩


/-! Claim C9. -/

/-- Truth of an issue being a child-not-found entry. -/
def Issue.isChildIssue : Issue → Bool
  | .childNotFound _ => true
  | .parentNotFound => false

/-- C9: integrity reporting.  First: a universe whose `parentId` is set but
evicted, and all of whose recorded children are live, is reported unhealthy
with exactly one issue, the parent-not-found issue.  Second: a universe is
healthy iff its issue list is empty.  Third: the report carries one
child-not-found entry per recorded child id that is no longer live. -/
theorem integrity_report :
    (∀ (s : Store) (u : Universe) (p : Nat),
      u.parentId = some p → (s.get p).isNone = true →
      (∀ c ∈ u.children, (s.get c).isSome = true) →
      checkIntegrity s u = (false, [Issue.parentNotFound])) ∧
    (∀ (s : Store) (u : Universe),
      (checkIntegrity s u).1 = true ↔ (checkIntegrity s u).2 = []) ∧
    (∀ (s : Store) (u : Universe),
      ((checkIntegrity s u).2.countP Issue.isChildIssue)
        = u.children.countP (fun c => (s.get c).isNone)) := by
  refine ⟨?_, ?_, ?_⟩
  · intro s u p hp hpar hch
    have hchildren : ∀ l : List Nat, (∀ c ∈ l, (s.get c).isSome = true) →
        (l.filterMap fun c =>
          if (s.get c).isNone then some (Issue.childNotFound c) else none) = [] := by
      intro l
      induction l with
      | nil => intro _; rfl
      | cons c l ih =>
        intro hl
        have h1 := hl c (List.mem_cons_self c l)
        have h2 : (s.get c).isNone = false := by
          cases hsc : s.get c with
          | none => rw [hsc] at h1; simp at h1
          | some v => rfl
        simp only [List.filterMap_cons, h2]
        exact ih (fun c hc => hl c (List.mem_cons_of_mem _ hc))
    simp [checkIntegrity, hp, hpar, hchildren u.children hch]
  · intro s u
    simp only [checkIntegrity]
    exact List.isEmpty_iff
  · intro s u
    show ((match u.parentId with
        | some p => if (s.get p).isNone then [Issue.parentNotFound] else []
        | none => []) ++ (u.children.filterMap fun c =>
          if (s.get c).isNone then some (Issue.childNotFound c) else none)).countP
        Issue.isChildIssue
      = u.children.countP (fun c => (s.get c).isNone)
    rw [List.countP_append]
    have hpar : ((match u.parentId with
        | some p => if (s.get p).isNone then [Issue.parentNotFound] else []
        | none => []).countP Issue.isChildIssue) = 0 := by
      cases hp : u.parentId with
      | none => rfl
      | some p => cases hsp : (s.get p).isNone <;> simp [Issue.isChildIssue]
    have hchild : ∀ l : List Nat,
        ((l.filterMap fun c =>
          if (s.get c).isNone then some (Issue.childNotFound c) else none).countP
            Issue.isChildIssue)
          = l.countP (fun c => (s.get c).isNone) := by
      intro l
      induction l with
      | nil => rfl
      | cons c l ih =>
        cases hsc : (s.get c).isNone <;>
          simp [List.filterMap_cons, hsc, List.countP_cons, ih, Issue.isChildIssue]
    rw [hpar, hchild]
    omega

/-- Universe whose parent (id 99) has been evicted while its sole recorded
child (id 0) is live. -/
def c9U : Universe := { mkUniverse 3 (some 99) [] none none with children := [0] }

/-- Store holding `c9U` and its live child, but not its parent. -/
def c9Store : Store :=
  { universes := [(0, exA), (3, c9U)], nextId := 4, maxUniverses := 10000 }

/-- Concrete run of claim C9: the universe with an evicted parent and live
children is reported unhealthy with exactly the parent-not-found issue. -/
theorem integrity_report_witness :
    c9U.parentId = some 99 ∧ (c9Store.get 99).isNone = true ∧
    (∀ c ∈ c9U.children, (c9Store.get c).isSome = true) ∧
    checkIntegrity c9Store c9U = (false, [Issue.parentNotFound]) :=
  ⟨rfl, rfl, by decide,
    integrity_report.1 c9Store c9U 99 rfl rfl (by decide)⟩


/-! Claim C10. -/

/-- Size bookkeeping invariant of a single universe: the stored
`metadata.stateSize` is the serialized length of the current state, and every
logged snapshot's `metadata.stateSize` is the serialized length of the state
it captured. -/
def sizeOk (u : Universe) : Prop :=
  u.stateSize = jsize u.state ∧ ∀ sn ∈ u.snapshots, sn.stateSize = jsize sn.state

/-- Size bookkeeping invariant over a raw entry list. -/
def allSizeOk (m : List (Nat × Universe)) : Prop :=
  ∀ p ∈ m, sizeOk p.2

/-- Size bookkeeping invariant over every live universe of a store. -/
def StoreSizeOk (s : Store) : Prop :=
  allSizeOk s.universes

instance (u : Universe) : Decidable (sizeOk u) :=
  inferInstanceAs (Decidable (_ ∧ _))

instance (m : List (Nat × Universe)) : Decidable (allSizeOk m) :=
  List.decidableBAll _ m

instance (s : Store) : Decidable (StoreSizeOk s) :=
  inferInstanceAs (Decidable (allSizeOk _))

theorem sizeOk_mkUniverse (id : Nat) (pid : Option Nat) (init : JObj)
    (b : Option Nat) (c : Option Nat) : sizeOk (mkUniverse id pid init b c) := by
  refine ⟨rfl, ?_⟩
  intro sn hsn
  simp [mkUniverse] at hsn

theorem sizeOk_withChild {u : Universe} (h : sizeOk u) (cid : Nat) :
    sizeOk (withChild u cid) :=
  ⟨h.1, h.2⟩

theorem sizeOk_updateStateU {u : Universe} (h : sizeOk u) (upd : JObj) :
    sizeOk (u.updateStateU upd).1 :=
  ⟨rfl, h.2⟩

theorem sizeOk_createSnapshotU {u : Universe} (h : sizeOk u) (sid : Nat) :
    sizeOk (u.createSnapshotU sid).1 := by
  refine ⟨h.1, ?_⟩
  intro sn hsn
  rcases List.mem_append.mp hsn with h1 | h1
  · exact h.2 sn h1
  · simp at h1
    rw [h1]

theorem allSizeOk_setEntry {m : List (Nat × Universe)} {u : Universe} (id : Nat)
    (h : allSizeOk m) (hu : sizeOk u) : allSizeOk (setEntry m id u) := by
  intro p hp
  rcases List.mem_map.mp hp with ⟨q, hq, hpq⟩
  by_cases hk : q.1 = id
  · rw [if_pos hk] at hpq
    rw [← hpq]
    exact hu
  · rw [if_neg hk] at hpq
    exact hpq ▸ h q hq

theorem allSizeOk_append {m mm : List (Nat × Universe)}
    (h : allSizeOk m) (h2 : allSizeOk mm) : allSizeOk (m ++ mm) := by
  intro p hp
  rcases List.mem_append.mp hp with hm | hm
  · exact h p hm
  · exact h2 p hm

theorem allSizeOk_lookup {m : List (Nat × Universe)} {id : Nat} {u : Universe}
    (h : allSizeOk m) (hl : lookupU m id = some u) : sizeOk u := by
  unfold lookupU at hl
  cases hf : m.find? (fun p => p.1 = id) with
  | none => rw [hf] at hl; simp at hl
  | some p =>
    rw [hf] at hl
    simp at hl
    exact hl ▸ h p (List.mem_of_find?_eq_some hf)

/-- C10: after every create, clone, updateState or snapshot capture, every
live universe's `metadata.stateSize` equals the serialized length of its
current state and every logged snapshot's `metadata.stateSize` equals the
serialized length of the state it captured; freshly created/cloned universes
and freshly captured snapshots satisfy the same bookkeeping. -/
theorem stateSize_invariant :
    (∀ (s : Store) (init : JObj) (bid ci : Option Nat),
      StoreSizeOk s →
      StoreSizeOk (s.createUniverse init bid ci).1 ∧
        sizeOk (s.createUniverse init bid ci).2) ∧
    (∀ (s : Store) (aid : Nat) (s' : Store) (B : Universe),
      StoreSizeOk s → s.cloneUniverse aid = .ok (s', B) →
      StoreSizeOk s' ∧ sizeOk B) ∧
    (∀ (s : Store) (id : Nat) (upd : JObj) (s' : Store) (r : UpdateResult),
      StoreSizeOk s → s.updateState id upd = .ok (s', r) → StoreSizeOk s') ∧
    (∀ (s : Store) (id : Nat) (s' : Store) (snap : Snapshot),
      StoreSizeOk s → s.createSnapshot id = .ok (s', snap) →
      StoreSizeOk s' ∧ snap.stateSize = jsize snap.state) := by
  refine ⟨?_, ?_, ?_, ?_⟩
  · intro s init bid ci h
    refine ⟨?_, sizeOk_mkUniverse _ _ _ _ _⟩
    exact allSizeOk_append h (by
      intro p hp
      simp at hp
      subst hp
      exact sizeOk_mkUniverse _ _ _ _ _)
  · intro s aid s' B h hc
    cases hsrc : s.get aid with
    | none => simp [Store.cloneUniverse, hsrc] at hc
    | some src =>
      have hsrc' : lookupU s.universes aid = some src := hsrc
      simp only [Store.cloneUniverse, hsrc, Except.ok.injEq, Prod.mk.injEq] at hc
      obtain ⟨h1, h2⟩ := hc
      subst h1
      subst h2
      have hsrcOk : sizeOk src := allSizeOk_lookup h hsrc'
      constructor
      · exact allSizeOk_append
          (allSizeOk_setEntry _ h (sizeOk_withChild hsrcOk _))
          (by
            intro p hp
            simp at hp
            subst hp
            exact sizeOk_mkUniverse _ _ _ _ _)
      · exact sizeOk_mkUniverse _ _ _ _ _
  · intro s id upd s' r h hu
    cases hget : s.get id with
    | none => simp [Store.updateState, hget] at hu
    | some u =>
      have hget' : lookupU s.universes id = some u := hget
      simp only [Store.updateState, Store.get_def, hget', Except.ok.injEq,
        Prod.mk.injEq] at hu
      obtain ⟨h1, h2⟩ := hu
      subst h1
      exact allSizeOk_setEntry _ h (sizeOk_updateStateU (allSizeOk_lookup h hget') upd)
  · intro s id s' snap h hs
    cases hget : s.get id with
    | none => simp [Store.createSnapshot, hget] at hs
    | some u =>
      have hget' : lookupU s.universes id = some u := hget
      simp only [Store.createSnapshot, Store.get_def, hget', Except.ok.injEq,
        Prod.mk.injEq] at hs
      obtain ⟨h1, h2⟩ := hs
      subst h1
      refine ⟨allSizeOk_setEntry _ h
        (sizeOk_createSnapshotU (allSizeOk_lookup h hget') _), ?_⟩
      rw [← h2]
      rfl

/-- Concrete run of claim C10: the store holding one freshly created universe
satisfies the bookkeeping invariant, and creating another universe preserves
it. -/
theorem stateSize_invariant_witness :
    StoreSizeOk exStore1 ∧
    (StoreSizeOk (exStore1.createUniverse exInit none none).1 ∧
      sizeOk (exStore1.createUniverse exInit none none).2) :=
  ⟨by decide, stateSize_invariant.1 exStore1 exInit none none (by decide)⟩


/-! Claim C8. -/

theorem createUniverse_fst (s : Store) (init : JObj) (b c : Option Nat) :
    (s.createUniverse init b c).1 =
      { s with
          universes := s.universes ++ [(s.nextId, mkUniverse s.nextId none init b c)]
          nextId := s.nextId + 1 } := rfl

theorem createUniverse_snd (s : Store) (init : JObj) (b c : Option Nat) :
    (s.createUniverse init b c).2 = mkUniverse s.nextId none init b c := rfl

theorem createChunk_succ (s : Store) (bid : Nat) (init : JObj) (base k : Nat) :
    createChunk s bid init base (k + 1) =
      ((createChunk (s.createUniverse init (some bid) (some base)).1
          bid init (base + 1) k).1,
       (s.createUniverse init (some bid) (some base)).2 ::
       (createChunk (s.createUniverse init (some bid) (some base)).1
          bid init (base + 1) k).2) := rfl

/-- Per-chunk specification of the inner creation loop: `k` universes are
produced with consecutive `creationIndex` values starting at `base`, all
tagged with the batch id, and `k` entries are appended to the live set. -/
theorem createChunk_spec (bid : Nat) (init : JObj) :
    ∀ (k base : Nat) (s : Store),
      ((createChunk s bid init base k).2.map (fun u => u.creationIndex)
        = (List.range' base k).map some) ∧
      ((createChunk s bid init base k).2.map (fun u => u.batchId)
        = List.replicate k (some bid)) ∧
      ((createChunk s bid init base k).1.universes.length
        = s.universes.length + k) := by
  intro k
  induction k with
  | zero => intro base s; exact ⟨rfl, rfl, rfl⟩
  | succ k ih =>
    intro base s
    obtain ⟨h1, h2, h3⟩ := ih (base + 1) (s.createUniverse init (some bid) (some base)).1
    rw [createChunk_succ]
    refine ⟨?_, ?_, ?_⟩
    · simp only [List.map_cons, h1, createUniverse_snd]
      rw [List.range'_succ]
      rfl
    · simp only [List.map_cons, h2, createUniverse_snd]
      rfl
    · show (createChunk (s.createUniverse init (some bid) (some base)).1
          bid init (base + 1) k).1.universes.length = s.universes.length + (k + 1)
      rw [h3, createUniverse_fst]
      simp only [List.length_append, List.length_cons, List.length_nil]
      omega

/-- Specification of the chunking loop: starting from remaining count `r` and
base index `b`, exactly `r` universes are produced with `creationIndex`
values `b, b+1, ..., b+r-1`, all tagged with the batch id, and `r` entries are
appended to the live set.  Stated for a positive chunk size `bs + 1`, the only
way `createUniverses` ever calls it. -/
theorem createChunks_spec (bid : Nat) (init : JObj) (bs : Nat) :
    ∀ (r b : Nat) (s : Store),
      ((createChunks bid init (bs + 1) s r b).2.map (fun u => u.creationIndex)
        = (List.range' b r).map some) ∧
      ((createChunks bid init (bs + 1) s r b).2.map (fun u => u.batchId)
        = List.replicate r (some bid)) ∧
      ((createChunks bid init (bs + 1) s r b).1.universes.length
        = s.universes.length + r) := by
  intro r
  induction r using Nat.strong_induction_on with
  | _ r ih =>
    match r with
    | 0 =>
      intro b s
      refine ⟨?_, ?_, ?_⟩ <;> simp [createChunks]
    | r + 1 =>
      intro b s
      have hk1 : 1 ≤ min (bs + 1) (r + 1) := by omega
      have hkr : min (bs + 1) (r + 1) ≤ r + 1 := by omega
      have hlt : r + 1 - min (bs + 1) (r + 1) < r + 1 := by omega
      obtain ⟨c1, c2, c3⟩ := createChunk_spec bid init (min (bs + 1) (r + 1)) b s
      obtain ⟨d1, d2, d3⟩ := ih (r + 1 - min (bs + 1) (r + 1)) hlt
        (b + min (bs + 1) (r + 1))
        (createChunk s bid init b (min (bs + 1) (r + 1))).1
      have hstep : createChunks bid init (bs + 1) s (r + 1) b =
          ((createChunks bid init (bs + 1)
              (createChunk s bid init b (min (bs + 1) (r + 1))).1
              (r + 1 - min (bs + 1) (r + 1)) (b + min (bs + 1) (r + 1))).1,
           (createChunk s bid init b (min (bs + 1) (r + 1))).2 ++
           (createChunks bid init (bs + 1)
              (createChunk s bid init b (min (bs + 1) (r + 1))).1
              (r + 1 - min (bs + 1) (r + 1)) (b + min (bs + 1) (r + 1))).2) := by
        simp [createChunks]
      rw [hstep]
      refine ⟨?_, ?_, ?_⟩
      · show ((createChunk s bid init b (min (bs + 1) (r + 1))).2 ++
            (createChunks bid init (bs + 1)
              (createChunk s bid init b (min (bs + 1) (r + 1))).1
              (r + 1 - min (bs + 1) (r + 1)) (b + min (bs + 1) (r + 1))).2).map
            (fun u => u.creationIndex)
          = (List.range' b (r + 1)).map some
        rw [List.map_append, c1, d1]
        have hr := List.range'_append b (min (bs + 1) (r + 1))
          (r + 1 - min (bs + 1) (r + 1)) 1
        rw [show (r + 1 - min (bs + 1) (r + 1)) + min (bs + 1) (r + 1) = r + 1
          by omega] at hr
        rw [show b + 1 * min (bs + 1) (r + 1) = b + min (bs + 1) (r + 1)
          by omega] at hr
        rw [← List.map_append, hr]
      · show ((createChunk s bid init b (min (bs + 1) (r + 1))).2 ++
            (createChunks bid init (bs + 1)
              (createChunk s bid init b (min (bs + 1) (r + 1))).1
              (r + 1 - min (bs + 1) (r + 1)) (b + min (bs + 1) (r + 1))).2).map
            (fun u => u.batchId)
          = List.replicate (r + 1) (some bid)
        rw [List.map_append, c2, d2, ← List.replicate_add]
        rw [show min (bs + 1) (r + 1) + (r + 1 - min (bs + 1) (r + 1)) = r + 1
          by omega]
      · show (createChunks bid init (bs + 1)
            (createChunk s bid init b (min (bs + 1) (r + 1))).1
            (r + 1 - min (bs + 1) (r + 1))
            (b + min (bs + 1) (r + 1))).1.universes.length
          = s.universes.length + (r + 1)
        rw [d3, c3]
        omega

/-- C8: `createMany` validation and batch traceability.  First: whenever the
requested count is non-positive or exceeds `maxBatchCount`, the call fails
with `InvalidArgument` and the store is untouched (validation precedes any
creation).  Second: for every valid count it produces exactly `count`
universes whose zero-based `creationIndex` values run `0 .. count-1` (hence
pairwise distinct), each tagged with the same fresh batch id, all registered
in the live set. -/
theorem createMany_validation_and_indices :
    (∀ (s : Store) (count : Int) (init : JObj),
      (count ≤ 0 ∨ count > maxBatchCount) →
      s.createUniverses count init = .error .invalidArgument) ∧
    (∀ (s : Store) (count : Int) (init : JObj),
      0 < count → count ≤ maxBatchCount →
      ∃ s' us, s.createUniverses count init = .ok (s', us) ∧
        us.length = count.toNat ∧
        us.map (fun u => u.creationIndex) = (List.range count.toNat).map some ∧
        us.map (fun u => u.batchId) = List.replicate count.toNat (some s.nextId) ∧
        s'.universes.length = s.universes.length + count.toNat) := by
  constructor
  · intro s count init h
    have h' : count ≤ 0 ∨ count > 10000 := by simpa [maxBatchCount] using h
    simp [Store.createUniverses, h']
  · intro s count init h1 h2
    have h2' : count ≤ 10000 := by simpa [maxBatchCount] using h2
    have hcond : ¬(count ≤ 0 ∨ count > 10000) := by omega
    have hn1 : 1 ≤ count.toNat := by omega
    obtain ⟨bs, hbs⟩ : ∃ bs, min 50 count.toNat = bs + 1 :=
      ⟨min 50 count.toNat - 1, by omega⟩
    obtain ⟨d1, d2, d3⟩ := createChunks_spec s.nextId init bs count.toNat 0
      { s with nextId := s.nextId + 1 }
    rw [← hbs] at d1 d2 d3
    refine ⟨(createChunks s.nextId init (min 50 count.toNat)
        { s with nextId := s.nextId + 1 } count.toNat 0).1,
      (createChunks s.nextId init (min 50 count.toNat)
        { s with nextId := s.nextId + 1 } count.toNat 0).2,
      ?_, ?_, ?_, ?_, ?_⟩
    · simp [Store.createUniverses, hcond]
    · have := congrArg List.length d1
      simpa using this
    · rw [List.range_eq_range']
      exact d1
    · exact d2
    · simpa using d3

/-- Concrete run of claim C8 (valid side): `createUniverses 3` on the empty
store produces 3 universes with creation indices `0, 1, 2`, all tagged with
batch id 0, and registers all 3. -/
theorem createMany_validation_and_indices_witness :
    ((0 : Int) < 3 ∧ (3 : Int) ≤ maxBatchCount) ∧
    (∃ s' us, exStore0.createUniverses 3 exInit = .ok (s', us) ∧
      us.length = (3 : Int).toNat ∧
      us.map (fun u => u.creationIndex) = (List.range (3 : Int).toNat).map some ∧
      us.map (fun u => u.batchId) = List.replicate (3 : Int).toNat (some exStore0.nextId) ∧
      s'.universes.length = exStore0.universes.length + (3 : Int).toNat) :=
  ⟨⟨by decide, by decide⟩,
    createMany_validation_and_indices.2 exStore0 3 exInit (by decide) (by decide)⟩


/-! Claim C7. -/

/-- Validity of a single batch item against a store: its target is live and
its kind-specific parameters satisfy the preconditions checked by
`performOperation` (an object `updates` for `update`; a non-empty, fully live
`sourceIds` list for `merge`; a known operation name). -/
def validOp (s : Store) (op : BatchOp) : Bool :=
  (s.get op.universeId).isSome &&
  (match op.operation with
   | .update => op.params.updates.isSome
   | .merge => (!op.params.sourceIds.isEmpty) &&
       op.params.sourceIds.all (fun sid => (s.get sid).isSome)
   | .other => false
   | _ => true)

theorem resolveSources_isSome {s : Store} : ∀ {ids : List Nat},
    (∀ sid ∈ ids, (s.get sid).isSome = true) →
    ∃ l, resolveSources s ids = some l := by
  intro ids
  induction ids with
  | nil => intro _; exact ⟨[], rfl⟩
  | cons sid rest ih =>
    intro h
    obtain ⟨u, hu⟩ := Option.isSome_iff_exists.mp (h sid (List.mem_cons_self _ _))
    obtain ⟨l, hl⟩ := ih (fun c hc => h c (List.mem_cons_of_mem _ hc))
    exact ⟨u :: l, by simp [resolveSources, hu, hl]⟩

/-- Every valid batch item resolves to a success. -/
theorem perform_ok_of_valid {s : Store} {op : BatchOp} (h : validOp s op = true) :
    ∃ s' r, performOperation s op = .ok (s', r) := by
  unfold validOp at h
  rw [Bool.and_eq_true] at h
  obtain ⟨hpres, hkind⟩ := h
  obtain ⟨u, hu⟩ := Option.isSome_iff_exists.mp hpres
  cases hop : op.operation with
  | snapshot => exact ⟨_, _, by simp only [performOperation, hu, hop]; rfl⟩
  | clone => exact ⟨_, _, by simp only [performOperation, hu, hop]; rfl⟩
  | branch => exact ⟨_, _, by simp only [performOperation, hu, hop]; rfl⟩
  | analyze => exact ⟨_, _, by simp only [performOperation, hu, hop]; rfl⟩
  | update =>
    rw [hop] at hkind
    obtain ⟨upd, hupd⟩ := Option.isSome_iff_exists.mp hkind
    exact ⟨_, _, by simp only [performOperation, hu, hop, hupd]; rfl⟩
  | merge =>
    rw [hop] at hkind
    rw [Bool.and_eq_true] at hkind
    obtain ⟨hne, hall⟩ := hkind
    have hall' : ∀ sid ∈ op.params.sourceIds, (s.get sid).isSome = true :=
      fun sid hsid => List.all_eq_true.mp hall sid hsid
    obtain ⟨l, hl⟩ := resolveSources_isSome hall'
    have hempty : op.params.sourceIds.isEmpty = false := by
      cases hsi : op.params.sourceIds.isEmpty
      · rfl
      · rw [hsi] at hne; simp at hne
    exact ⟨_, _, by
      simp only [performOperation, hu, hop, mergeUniverse, hempty, hl,
        Bool.false_eq_true, if_false, Except.map]
      rfl⟩
  | other => rw [hop] at hkind; simp at hkind

theorem lookupU_append_single_isSome (m : List (Nat × Universe)) (n : Nat)
    (u : Universe) (x : Nat) :
    (lookupU (m ++ [(n, u)]) x).isSome
      = ((lookupU m x).isSome || decide (x = n)) := by
  cases hm : lookupU m x with
  | some w => rw [lookupU_append_left hm]; simp
  | none =>
    rw [lookupU_append_none hm]
    by_cases hx : x = n
    · subst hx; simp [lookupU, List.find?_cons]
    · have hnx : ¬(n = x) := fun hh => hx hh.symm
      simp [lookupU, List.find?_cons, hnx, hx]

/-- Evolution relation between stores across one successful operation: the
uuid counter never decreases, live universes stay live, and ids below the old
counter that were absent stay absent (freshly generated ids are new). -/
def StoreStep (s s' : Store) : Prop :=
  s.nextId ≤ s'.nextId ∧
  (∀ x, (s.get x).isSome = true → (s'.get x).isSome = true) ∧
  (∀ x, x < s.nextId → (s.get x).isSome = false → (s'.get x).isSome = false)

theorem storeStep_refl (s : Store) : StoreStep s s :=
  ⟨le_refl _, fun _ h => h, fun _ _ h => h⟩

theorem storeStep_setEntry (s : Store) (i : Nat) (v : Universe) :
    StoreStep s { s with universes := setEntry s.universes i v } := by
  refine ⟨le_refl _, ?_, ?_⟩
  · intro x h
    rw [Store.get_def] at h ⊢
    show (lookupU (setEntry s.universes i v) x).isSome = true
    rw [lookupU_setEntry_isSome]
    exact h
  · intro x _ h
    rw [Store.get_def] at h ⊢
    show (lookupU (setEntry s.universes i v) x).isSome = false
    rw [lookupU_setEntry_isSome]
    exact h

theorem storeStep_setEntry_bump (s : Store) (i : Nat) (v : Universe) :
    StoreStep s { s with universes := setEntry s.universes i v
                         nextId := s.nextId + 1 } := by
  refine ⟨Nat.le_succ _, ?_, ?_⟩
  · intro x h
    rw [Store.get_def] at h ⊢
    show (lookupU (setEntry s.universes i v) x).isSome = true
    rw [lookupU_setEntry_isSome]
    exact h
  · intro x _ h
    rw [Store.get_def] at h ⊢
    show (lookupU (setEntry s.universes i v) x).isSome = false
    rw [lookupU_setEntry_isSome]
    exact h

theorem storeStep_setEntry_append (s : Store) (i : Nat) (v w : Universe) :
    StoreStep s { s with
      universes := setEntry s.universes i v ++ [(s.nextId, w)]
      nextId := s.nextId + 1 } := by
  refine ⟨Nat.le_succ _, ?_, ?_⟩
  · intro x h
    rw [Store.get_def] at h ⊢
    show (lookupU (setEntry s.universes i v ++ [(s.nextId, w)]) x).isSome = true
    rw [lookupU_append_single_isSome, lookupU_setEntry_isSome, h]
    rfl
  · intro x hx h
    rw [Store.get_def] at h ⊢
    show (lookupU (setEntry s.universes i v ++ [(s.nextId, w)]) x).isSome = false
    rw [lookupU_append_single_isSome, lookupU_setEntry_isSome, h]
    have : ¬(x = s.nextId) := by omega
    simp [this]

/-- Successful operations only grow the live set and the uuid counter. -/
theorem perform_storeStep {s : Store} {op : BatchOp} {s' : Store} {r : OpResult}
    (h : performOperation s op = .ok (s', r)) : StoreStep s s' := by
  cases hu : s.get op.universeId with
  | none => simp [performOperation, hu] at h
  | some u =>
    cases hop : op.operation with
    | snapshot =>
      simp only [performOperation, hu, hop, Except.ok.injEq, Prod.mk.injEq] at h
      rw [← h.1]
      exact storeStep_setEntry_bump s op.universeId (u.createSnapshotU s.nextId).1
    | clone =>
      simp only [performOperation, hu, hop, Except.ok.injEq, Prod.mk.injEq] at h
      rw [← h.1]
      exact storeStep_setEntry_append s op.universeId
        (withChild u s.nextId) (cloneChild u s.nextId)
    | update =>
      cases hupd : op.params.updates with
      | none => simp [performOperation, hu, hop, hupd] at h
      | some upd =>
        simp only [performOperation, hu, hop, hupd, Except.ok.injEq,
          Prod.mk.injEq] at h
        rw [← h.1]
        exact storeStep_setEntry s op.universeId (u.updateStateU upd).1
    | branch =>
      simp only [performOperation, hu, hop, branchUniverse, Except.ok.injEq,
        Prod.mk.injEq] at h
      rw [← h.1]
      cases op.params.modifications with
      | none => exact storeStep_setEntry_append s u.id (withChild u s.nextId) _
      | some m => exact storeStep_setEntry_append s u.id (withChild u s.nextId) _
    | merge =>
      cases hempty : op.params.sourceIds.isEmpty with
      | true => simp [performOperation, hu, hop, mergeUniverse, hempty, Except.map] at h
      | false =>
        cases hres : resolveSources s op.params.sourceIds with
        | none =>
          simp [performOperation, hu, hop, mergeUniverse, hempty, hres, Except.map] at h
        | some l =>
          simp only [performOperation, hu, hop, mergeUniverse, hempty, hres,
            Bool.false_eq_true, if_false, Except.map, Except.ok.injEq,
            Prod.mk.injEq] at h
          rw [← h.1]
          exact storeStep_setEntry s u.id _
    | analyze =>
      simp only [performOperation, hu, hop, Except.ok.injEq, Prod.mk.injEq] at h
      rw [← h.1]
      exact storeStep_refl s
    | other => simp [performOperation, hu, hop] at h

/-- Validity of a batch item is preserved by any successful sibling
operation: operations never evict universes. -/
theorem validOp_mono {s s' : Store} (hs : StoreStep s s') {op : BatchOp}
    (hv : validOp s op = true) : validOp s' op = true := by
  unfold validOp at hv ⊢
  rw [Bool.and_eq_true] at hv ⊢
  obtain ⟨hpres, hkind⟩ := hv
  refine ⟨hs.2.1 _ hpres, ?_⟩
  cases hop : op.operation <;> rw [hop] at hkind <;> try exact hkind
  rw [Bool.and_eq_true] at hkind ⊢
  refine ⟨hkind.1, ?_⟩
  rw [List.all_eq_true] at hkind ⊢
  intro sid hsid
  exact hs.2.1 _ (hkind.2 sid hsid)

/-- C7: a single item's failure in a batch is captured per-item and does not
abort or cancel the other items: for every store and five operations of which
the four at positions 0, 1, 3, 4 are valid while the one at position 2
targets an id that is not live (and cannot be created mid-batch), the batch
returns exactly four successes and exactly one failure entry recorded at
index 2. -/
theorem runMany_isolates_single_failure
    (s : Store) (o0 o1 o2 o3 o4 : BatchOp)
    (h0 : validOp s o0 = true) (h1 : validOp s o1 = true)
    (h3 : validOp s o3 = true) (h4 : validOp s o4 = true)
    (habs : (s.get o2.universeId).isSome = false)
    (hlow : o2.universeId < s.nextId) :
    ∃ r0 r1 e r3 r4,
      (processBatchOperation s [o0, o1, o2, o3, o4]).2
        = [.ok r0, .ok r1, .failed e 2, .ok r3, .ok r4] := by
  obtain ⟨s1, r0, hp0⟩ := perform_ok_of_valid h0
  have step0 := perform_storeStep hp0
  obtain ⟨s2, r1, hp1⟩ := perform_ok_of_valid (validOp_mono step0 h1)
  have step1 := perform_storeStep hp1
  have habs1 : (s1.get o2.universeId).isSome = false := step0.2.2 _ hlow habs
  have hlow1 : o2.universeId < s1.nextId := lt_of_lt_of_le hlow step0.1
  have habs2 : (s2.get o2.universeId).isSome = false := step1.2.2 _ hlow1 habs1
  have hnone2 : s2.get o2.universeId = none := by
    cases hh : s2.get o2.universeId with
    | none => rfl
    | some v => rw [hh] at habs2; simp at habs2
  have herr : performOperation s2 o2 = .error Err.notFound := by
    simp [performOperation, hnone2]
  obtain ⟨s3, r3, hp3⟩ := perform_ok_of_valid
    (validOp_mono step1 (validOp_mono step0 h3))
  have step3 := perform_storeStep hp3
  obtain ⟨s4, r4, hp4⟩ := perform_ok_of_valid
    (validOp_mono step3 (validOp_mono step1 (validOp_mono step0 h4)))
  exact ⟨r0, r1, Err.notFound, r3, r4, by
    simp [processBatchOperation, runBatch, hp0, hp1, herr, hp3, hp4]⟩

/-- Store for the concrete batch scenario: three live universes (ids 0, 1, 2)
and a counter past the absent id 3. -/
def c7Store : Store :=
  { universes := [(0, c5T), (1, c5A), (2, c5B)], nextId := 4, maxUniverses := 10000 }

/-- Five concrete batch operations; the third targets the absent id 3. -/
def c7o0 : BatchOp := { universeId := 0, operation := .snapshot, params := {} }

/-- Second batch item: a state update on universe 1. -/
def c7o1 : BatchOp :=
  { universeId := 1, operation := .update,
    params := { updates := some [("z", JVal.jnum 9)] } }

/-- Third batch item: a snapshot of the non-existent universe 3. -/
def c7o2 : BatchOp := { universeId := 3, operation := .snapshot, params := {} }

/-- Fourth batch item: a clone of universe 2. -/
def c7o3 : BatchOp := { universeId := 2, operation := .clone, params := {} }

/-- Fifth batch item: an analysis of universe 0. -/
def c7o4 : BatchOp := { universeId := 0, operation := .analyze, params := {} }

/-- Concrete run of claim C7: five operations, the third targeting a missing
id, return four successes and exactly one failure entry at index 2. -/
theorem runMany_isolates_single_failure_witness :
    (validOp c7Store c7o0 = true ∧ validOp c7Store c7o1 = true ∧
     validOp c7Store c7o3 = true ∧ validOp c7Store c7o4 = true ∧
     (c7Store.get c7o2.universeId).isSome = false ∧
     c7o2.universeId < c7Store.nextId) ∧
    (∃ r0 r1 e r3 r4,
      (processBatchOperation c7Store [c7o0, c7o1, c7o2, c7o3, c7o4]).2
        = [.ok r0, .ok r1, .failed e 2, .ok r3, .ok r4]) :=
  ⟨⟨by decide, by decide, by decide, by decide, by decide, by decide⟩,
    runMany_isolates_single_failure c7Store c7o0 c7o1 c7o2 c7o3 c7o4
      (by decide) (by decide) (by decide) (by decide) (by decide) (by decide)⟩


end Helios
